import Mathlib

/-!
# Verification of the-sync-frontend core layers

Shallow embedding of the two "core" layers of the repository:

* the HTTP access layer (`src/lib/services/http/interceptors.ts`):
  request interceptor, response error handler with one-shot token refresh;
* the generic store-action factory (the `store` utilities module shipped in
  the repository snapshot): fetch / fetch-by-semester / create / create-many /
  update / delete / toggle actions over a string-keyed store state.

JavaScript state objects are string-keyed dictionaries; we embed them as
functions `String → Option (List T)` (list-valued fields, `none` = the key
is absent / `undefined`) and `String → Bool` (boolean flags, absent keys
read as `false`, matching JS falsiness of `undefined`).
-/

namespace TheSync

/-- JS `String.prototype.includes`: substring containment. -/
def jsIncludes (s pat : String) : Bool :=
  decide (pat.toList <:+: s.toList)

/-! ## HTTP access layer (`interceptors.ts`) -/

/-- Axios request config, restricted to the fields the interceptors read or
write: `url`, the `Authorization` header and the `_retry` flag
(`undefined` on a fresh request, embedded as `false`). -/
structure ReqConfig where
  url : Option String
  authHeader : Option String
  retryFlag : Bool
deriving Repr, DecidableEq

/-- The `authEndpoints` list appearing in both interceptors. -/
def authEndpoints : List String :=
  ["/auth/admin/login", "/auth/user/login", "/auth/admin/refresh", "/auth/user/refresh"]

/-- `authEndpoints.some((endpoint) => config.url?.includes(endpoint))`:
an undefined `url` is never an auth endpoint (optional chaining yields
`undefined`, which is falsy). -/
def isAuthEndpoint (url : Option String) : Bool :=
  authEndpoints.any fun endpoint =>
    match url with
    | some u => jsIncludes u endpoint
    | none => false

/-- Result of `TokenManager.getValidAccessToken()` as observed by the request
interceptor: the call may throw (`Except.error`), return `null` (`ok none`)
or return a token (`ok (some t)`). -/
abbrev TokenFetch := Except Unit (Option String)

/-- `HttpInterceptors.createRequestInterceptor`: skip auth endpoints;
otherwise attach `Bearer <token>` when a valid token is obtained; on
`null` token or a thrown error, forward the request unchanged. -/
def requestInterceptor (tok : TokenFetch) (config : ReqConfig) : ReqConfig :=
  if isAuthEndpoint config.url then config
  else
    match tok with
    | .ok (some t) => { config with authHeader := some ("Bearer " ++ t) }
    | .ok none => config
    | .error _ => config

/-- The slice of an `AxiosError` read by the response error handler:
`error.config` (possibly undefined) and `error.response?.status`. -/
structure HttpErr where
  config : Option ReqConfig
  status : Option Nat
deriving Repr, DecidableEq

/-- What the response error handler does with a failed response:
`reject` = propagate the failure (`Promise.reject`); `reissue c` = return
`httpClient(c)`, i.e. the re-sent request's result replaces the failure. -/
inductive HandlerOutcome where
  | reject
  | reissue (newConfig : ReqConfig)
deriving Repr, DecidableEq

/-- Outcome of one run of the response error handler, together with the
side effects it performed (`TokenManager.clearTokens()` and the
`window.location.href = '/login'` redirect). -/
structure HandlerResult where
  outcome : HandlerOutcome
  clearedTokens : Bool
  redirectedToLogin : Bool
deriving Repr, DecidableEq

/-- `HttpInterceptors.createResponseErrorHandler`. `refresh` is the value
`TokenManager.refreshAccessToken()` resolves to (`none` = refresh failed).
On a 401 from a non-auth endpoint whose request is not yet marked
`_retry`, the request is marked retried; a successful refresh re-sends it
with the new bearer token, a failed refresh clears tokens and redirects to
login and the original failure is rejected. All other failures reject. -/
def responseErrorHandler (refresh : Option String) (err : HttpErr) : HandlerResult :=
  match err.config with
  | none => ⟨.reject, false, false⟩
  | some orig =>
    if err.status = some 401 ∧ orig.retryFlag = false ∧ isAuthEndpoint orig.url = false then
      match refresh with
      | some t =>
        ⟨.reissue { orig with retryFlag := true, authHeader := some ("Bearer " ++ t) },
          false, false⟩
      | none => ⟨.reject, true, true⟩
    else
      ⟨.reject, false, false⟩

end TheSync

namespace TheSync

/-- C5 helper: the request the interceptor forwards for a non-auth endpoint
when a token was obtained. -/
theorem requestInterceptor_attach (t : String) (config : ReqConfig)
    (h : isAuthEndpoint config.url = false) :
    requestInterceptor (.ok (some t)) config
      = { config with authHeader := some ("Bearer " ++ t) } := by
  simp [requestInterceptor, h]

/-- Claim C5: The request interceptor passes requests to auth endpoints through
unmodified; for every other request it attaches the obtained access token as
a `Bearer` Authorization header when one is obtained, and forwards the
request unchanged when the token is `null` or obtaining it threw. -/
theorem request_interceptor_spec (tok : TokenFetch) (config : ReqConfig) :
    (isAuthEndpoint config.url = true → requestInterceptor tok config = config)
    ∧ (isAuthEndpoint config.url = false →
        (∀ t, tok = .ok (some t) →
          requestInterceptor tok config
            = { config with authHeader := some ("Bearer " ++ t) })
        ∧ (tok = .ok none → requestInterceptor tok config = config)
        ∧ (∀ e, tok = .error e → requestInterceptor tok config = config)) := by
  refine ⟨fun h => ?_, fun h => ⟨fun t ht => ?_, fun ht => ?_, fun e ht => ?_⟩⟩
  · simp [requestInterceptor, h]
  · subst ht; simp [requestInterceptor, h]
  · subst ht; simp [requestInterceptor, h]
  · subst ht; simp [requestInterceptor, h]

/-- Witness for C5 at a concrete request and token. -/
theorem request_interceptor_spec_witness :
    isAuthEndpoint (some "/students") = false
    ∧ requestInterceptor (.ok (some "tok")) ⟨some "/students", none, false⟩
        = ⟨some "/students", some "Bearer tok", false⟩ := by
  refine ⟨by decide, ?_⟩
  exact (request_interceptor_spec (.ok (some "tok"))
    ⟨some "/students", none, false⟩).2 (by decide) |>.1 "tok" rfl

/-- Claim C6: On a 401 from a non-auth endpoint whose request is not yet
retried: if the refresh yields a token the original request is reissued,
marked retried, carrying the new bearer credential, with no token clearing
or redirect; if the refresh yields no token the handler clears all stored
tokens, redirects the session to the login page, and rejects (propagates)
the original failure. -/
theorem response_error_handler_refresh (orig : ReqConfig)
    (hretry : orig.retryFlag = false) (hauth : isAuthEndpoint orig.url = false) :
    (∀ t, responseErrorHandler (some t) ⟨some orig, some 401⟩
        = ⟨.reissue { orig with retryFlag := true, authHeader := some ("Bearer " ++ t) },
            false, false⟩)
    ∧ responseErrorHandler none ⟨some orig, some 401⟩ = ⟨.reject, true, true⟩ := by
  constructor
  · intro t
    simp [responseErrorHandler, hretry, hauth]
  · simp [responseErrorHandler, hretry, hauth]

/-- Witness for C6 at a concrete request. -/
theorem response_error_handler_refresh_witness :
    (⟨some "/students", some "Bearer old", false⟩ : ReqConfig).retryFlag = false
    ∧ responseErrorHandler (some "new") ⟨some ⟨some "/students", some "Bearer old", false⟩, some 401⟩
        = ⟨.reissue ⟨some "/students", some "Bearer new", true⟩, false, false⟩
    ∧ responseErrorHandler none ⟨some ⟨some "/students", some "Bearer old", false⟩, some 401⟩
        = ⟨.reject, true, true⟩ := by
  have h := response_error_handler_refresh ⟨some "/students", some "Bearer old", false⟩
    rfl (by decide)
  exact ⟨rfl, h.1 "new", h.2⟩

/-- Claim C1: Retry-once bound: the response error handler never retries twice.
Every request it reissues carries `retryFlag = true`; and for a request
already marked retried the handler rejects every failure, whatever its
status and whatever the refresh returns — so a second 401 on the reissued
request propagates as a failure and the handler cannot loop. -/
theorem retry_once_bound :
    (∀ (refresh : Option String) (err : HttpErr) (c : ReqConfig),
      (responseErrorHandler refresh err).outcome = .reissue c → c.retryFlag = true)
    ∧ (∀ (refresh refresh' : Option String) (orig c : ReqConfig),
        (responseErrorHandler refresh ⟨some orig, some 401⟩).outcome = .reissue c →
          ∀ status, (responseErrorHandler refresh' ⟨some c, status⟩).outcome = .reject) := by
  have key : ∀ (refresh : Option String) (err : HttpErr) (c : ReqConfig),
      (responseErrorHandler refresh err).outcome = .reissue c → c.retryFlag = true := by
    intro refresh err c h
    match err with
    | ⟨none, _⟩ => simp [responseErrorHandler] at h
    | ⟨some orig, status⟩ =>
      by_cases hcond : status = some 401 ∧ orig.retryFlag = false
          ∧ isAuthEndpoint orig.url = false
      · match refresh with
        | some t =>
          simp [responseErrorHandler, hcond] at h
          rw [← h]
        | none => simp [responseErrorHandler, hcond] at h
      · simp [responseErrorHandler, hcond] at h
  refine ⟨key, fun refresh refresh' orig c h status => ?_⟩
  have hc := key refresh ⟨some orig, some 401⟩ c h
  have : ¬(status = some 401 ∧ c.retryFlag = false ∧ isAuthEndpoint c.url = false) := by
    rintro ⟨-, h2, -⟩
    rw [hc] at h2
    exact Bool.noConfusion h2
  simp [responseErrorHandler, this]

/-- Witness for C1: a concrete request 401s, is reissued once, and the
reissued request's 401 is rejected. -/
theorem retry_once_bound_witness :
    (responseErrorHandler (some "new")
        ⟨some ⟨some "/students", none, false⟩, some 401⟩).outcome
      = .reissue ⟨some "/students", some "Bearer new", true⟩
    ∧ (responseErrorHandler (some "new2")
        ⟨some ⟨some "/students", some "Bearer new", true⟩, some 401⟩).outcome = .reject := by
  refine ⟨rfl, ?_⟩
  exact retry_once_bound.2 (some "new") (some "new2") ⟨some "/students", none, false⟩
    ⟨some "/students", some "Bearer new", true⟩ rfl (some 401)

end TheSync

namespace TheSync

/-! ## Generic store-action factory (store utilities module) -/

/-- The `{message, statusCode}` shape of a normalized API error. -/
structure ApiErr where
  message : String
  statusCode : Nat
deriving Repr, DecidableEq

/-- `createErrorState`: the single-slot error state recorded in `lastError`
(`timestamp: new Date()` embedded as a `Nat` clock value `now`). -/
structure ErrState where
  message : String
  statusCode : Nat
  timestamp : Nat
deriving Repr, DecidableEq

/-- `createErrorState` builds the error state from a normalized error. -/
def createErrorState (now : Nat) (e : ApiErr) : ErrState :=
  ⟨e.message, e.statusCode, now⟩

/-- Normalized result of the service call, as produced by
`handleApiResponse` / the surrounding `try`-`catch`:
`ok data` = `{success true, data}`; `okNoData` = success without (truthy)
data; `err e` = `{success false, error e}`; `thrown e` = the service threw
and `handleApiError` wrapped the exception as `e`. -/
inductive ApiResult (D : Type) where
  | ok (data : D)
  | okNoData
  | err (e : ApiErr)
  | thrown (e : ApiErr)
deriving Repr, DecidableEq

/-- Zustand store state as read/written by the factory actions. JS state is
a string-keyed dictionary: `fields` are the list-valued entries (the
`<entity>s` and `filtered<Entity>s` collections; `none` = key absent),
`flags` the boolean busy-flags (absent keys read `false`), plus the two
scalar entries `lastSemesterId` and `lastError`. -/
structure StoreState (T : Type) where
  fields : String → Option (List T)
  flags : String → Bool
  lastSemesterId : Option String
  lastError : Option ErrState

/-- Write a list-valued state entry (JS `set({ [k]: v })`). -/
def setF {T : Type} (m : String → Option (List T)) (k : String) (v : List T) :
    String → Option (List T) :=
  fun q => if q = k then some v else m q

/-- Write a boolean state entry (JS `set({ [k]: v })`). -/
def setB (m : String → Bool) (k : String) (v : Bool) : String → Bool :=
  fun q => if q = k then v else m q

/-- Read a collection; stores initialize their collections to `[]`
(`createReset`), and the factory spreads the stored array, so an absent key
reads as the empty collection here. -/
def getList {T : Type} (s : StoreState T) (k : String) : List T :=
  (s.fields k).getD []

/-- JS `entityName.charAt(0).toUpperCase() + entityName.slice(1)`. -/
def capitalize : String → String
  | ⟨[]⟩ => ⟨[]⟩
  | ⟨c :: cs⟩ => ⟨c.toUpper :: cs⟩

/-- The dynamically built collection key `` `${entityName}s` ``. -/
def pluralKey (e : String) : String := e ++ "s"

/-- The dynamically built derived-view key `` `filtered${Entity}s` ``. -/
def filteredKey (e : String) : String := "filtered" ++ capitalize e ++ "s"

/-- The dynamically built batch busy-flag key `` `creatingMany${Entity}s` ``. -/
def creatingManyKey (e : String) : String := "creatingMany" ++ capitalize e ++ "s"

/-- Modelled from the spec: the per-store `filter<Entity>s` function that
the factory looks up by name and calls when present
(`if (typeof filterFunction === 'function') filterFunction()`). The store
modules defining these functions are not in the repository snapshot; per
the spec the filtered list "is always a subset (by identity/order)
computable purely from the full list and current search/filter parameters —
it is never independently mutated", so the call is embedded as writing
`filtered<Entity>s := filterFn (full list)`, with `hasFilter = false` when
the store has no such function (the lookup is then a no-op). -/
def runFilter {T : Type} (e : String) (hasFilter : Bool) (filterFn : List T → List T)
    (s : StoreState T) : StoreState T :=
  if hasFilter then
    { s with fields := setF s.fields (filteredKey e) (filterFn (getList s (pluralKey e))) }
  else s

/-- `handleFetchSuccess`: store the fetched list under both the collection
key and the filtered key, then run the store's filter function if any. -/
def handleFetchSuccess {T : Type} (e : String) (hasFilter : Bool)
    (filterFn : List T → List T) (data : List T) (s : StoreState T) : StoreState T :=
  runFilter e hasFilter filterFn
    { s with fields := setF (setF s.fields (pluralKey e) data) (filteredKey e) data }

/-- `handleCreateSuccess`: prepend the new record to the collection, then
run the filter function. -/
def handleCreateSuccess {T : Type} (e : String) (hasFilter : Bool)
    (filterFn : List T → List T) (data : T) (s : StoreState T) : StoreState T :=
  runFilter e hasFilter filterFn
    { s with fields := setF s.fields (pluralKey e) (data :: getList s (pluralKey e)) }

/-- `handleUpdateSuccess`: replace the record matching `id` in place
(`items.map(item => item.id === id ? data : item)`), then run the filter
function. `idOf` projects the `id` field of a record. -/
def handleUpdateSuccess {T : Type} (idOf : T → String) (e : String) (hasFilter : Bool)
    (filterFn : List T → List T) (data : T) (id : String) (s : StoreState T) : StoreState T :=
  let mapped := (getList s (pluralKey e)).map fun item => if idOf item = id then data else item
  runFilter e hasFilter filterFn
    { s with fields := setF s.fields (pluralKey e) mapped }

/-- `handleDeleteSuccess`: remove the records matching `id`
(`items.filter(item => item.id !== id)`), then run the filter function. -/
def handleDeleteSuccess {T : Type} (idOf : T → String) (e : String) (hasFilter : Bool)
    (filterFn : List T → List T) (id : String) (s : StoreState T) : StoreState T :=
  let kept := (getList s (pluralKey e)).filter fun item => idOf item != id
  runFilter e hasFilter filterFn
    { s with fields := setF s.fields (pluralKey e) kept }

/-- `handleResultError`: record the normalized error in the single error
slot (the notification it also shows is outside the store state). -/
def handleResultError {T : Type} (now : Nat) (e : ApiErr) (s : StoreState T) : StoreState T :=
  { s with lastError := some (createErrorState now e) }

/-- `handleActionError`: wrap a thrown error (`handleApiError`) and record
it in the single error slot. -/
def handleActionError {T : Type} (now : Nat) (e : ApiErr) (s : StoreState T) : StoreState T :=
  { s with lastError := some (createErrorState now e) }

/-- `createFetchAction`: set `loading`, clear `lastError`, run the service,
store the list on success, record the error otherwise, and always clear
`loading` in the `finally` block. -/
def createFetchAction {T : Type} (e : String) (hasFilter : Bool)
    (filterFn : List T → List T) (now : Nat) (svc : ApiResult (List T))
    (s : StoreState T) : StoreState T :=
  let s0 : StoreState T := { s with flags := setB s.flags "loading" true, lastError := none }
  let s1 : StoreState T :=
    match svc with
    | .ok data => handleFetchSuccess e hasFilter filterFn data s0
    | .okNoData => s0
    | .err er => handleResultError now er s0
    | .thrown er => handleActionError now er s0
  { s1 with flags := setB s1.flags "loading" false }

/-- `createCreateAction`: set `creating`, clear `lastError`; on success
prepend the returned record (`handleCreateSuccess`) and return `true`;
on a normalized error record it (`createErrorState` + `set({lastError})`,
`handleCreateError` only notifies) and return `false`; on a thrown error
`handleActionError`; `finally` clears `creating`. -/
def createCreateAction {T : Type} (e : String) (hasFilter : Bool)
    (filterFn : List T → List T) (now : Nat) (svc : ApiResult T)
    (s : StoreState T) : StoreState T × Bool :=
  let s0 : StoreState T := { s with flags := setB s.flags "creating" true, lastError := none }
  let step : StoreState T × Bool :=
    match svc with
    | .ok data => (handleCreateSuccess e hasFilter filterFn data s0, true)
    | .okNoData => (s0, false)
    | .err er => ({ s0 with lastError := some (createErrorState now er) }, false)
    | .thrown er => (handleActionError now er s0, false)
  ({ step.1 with flags := setB step.1.flags "creating" false }, step.2)

/-- `createBatchCreateAction`: set both the legacy `creatingMany` flag and
the `` `creatingMany${Entity}s` `` flag, clear `lastError`; on success
prepend all returned records in server order and run the filter; `finally`
clears both flags. -/
def createBatchCreateAction {T : Type} (e : String) (hasFilter : Bool)
    (filterFn : List T → List T) (now : Nat) (svc : ApiResult (List T))
    (s : StoreState T) : StoreState T × Bool :=
  let s0 : StoreState T :=
    { s with flags := setB (setB s.flags "creatingMany" true) (creatingManyKey e) true,
             lastError := none }
  let step : StoreState T × Bool :=
    match svc with
    | .ok data =>
      let prepended := data ++ getList s0 (pluralKey e)
      (runFilter e hasFilter filterFn
        { s0 with fields := setF s0.fields (pluralKey e) prepended }, true)
    | .okNoData => (s0, false)
    | .err er => ({ s0 with lastError := some (createErrorState now er) }, false)
    | .thrown er => (handleActionError now er s0, false)
  ({ step.1 with
      flags := setB (setB step.1.flags "creatingMany" false) (creatingManyKey e) false },
    step.2)

/-- `createUpdateAction`: set `updating`, clear `lastError`; on success
replace the matching record in place (`handleUpdateSuccess`); `finally`
clears `updating`. -/
def createUpdateAction {T : Type} (idOf : T → String) (e : String) (hasFilter : Bool)
    (filterFn : List T → List T) (now : Nat) (svc : ApiResult T) (id : String)
    (s : StoreState T) : StoreState T × Bool :=
  let s0 : StoreState T := { s with flags := setB s.flags "updating" true, lastError := none }
  let step : StoreState T × Bool :=
    match svc with
    | .ok data => (handleUpdateSuccess idOf e hasFilter filterFn data id s0, true)
    | .okNoData => (s0, false)
    | .err er => (handleResultError now er s0, false)
    | .thrown er => (handleActionError now er s0, false)
  ({ step.1 with flags := setB step.1.flags "updating" false }, step.2)

/-- `createToggleStatusAction`: identical to update except for the
`togglingStatus` busy-flag; success goes through the shared
`handleUpdateSuccess`. -/
def createToggleStatusAction {T : Type} (idOf : T → String) (e : String) (hasFilter : Bool)
    (filterFn : List T → List T) (now : Nat) (svc : ApiResult T) (id : String)
    (s : StoreState T) : StoreState T × Bool :=
  let s0 : StoreState T :=
    { s with flags := setB s.flags "togglingStatus" true, lastError := none }
  let step : StoreState T × Bool :=
    match svc with
    | .ok data => (handleUpdateSuccess idOf e hasFilter filterFn data id s0, true)
    | .okNoData => (s0, false)
    | .err er => (handleResultError now er s0, false)
    | .thrown er => (handleActionError now er s0, false)
  ({ step.1 with flags := setB step.1.flags "togglingStatus" false }, step.2)

/-- `createDeleteAction`: set `deleting`, clear `lastError`; success is
`result.success` alone (no data required), removing the record; `finally`
clears `deleting`. -/
def createDeleteAction {T : Type} (idOf : T → String) (e : String) (hasFilter : Bool)
    (filterFn : List T → List T) (now : Nat) (svc : ApiResult Unit) (id : String)
    (s : StoreState T) : StoreState T × Bool :=
  let s0 : StoreState T := { s with flags := setB s.flags "deleting" true, lastError := none }
  let step : StoreState T × Bool :=
    match svc with
    | .ok _ => (handleDeleteSuccess idOf e hasFilter filterFn id s0, true)
    | .okNoData => (handleDeleteSuccess idOf e hasFilter filterFn id s0, true)
    | .err er => (handleResultError now er s0, false)
    | .thrown er => (handleActionError now er s0, false)
  ({ step.1 with flags := setB step.1.flags "deleting" false }, step.2)

/-- The 409-downgrade test in `createFetchBySemesterAction`:
`statusCode === 409 && message && (message.includes('NotYet') ||
message.includes('End') || message.includes('semesters allow student
enrollment'))` (a JS empty string is falsy). -/
def downgradeCond (er : ApiErr) : Bool :=
  er.statusCode == 409 && er.message != "" &&
    (jsIncludes er.message "NotYet" || jsIncludes er.message "End" ||
      jsIncludes er.message "semesters allow student enrollment")

/-- `createFetchBySemesterAction`. Unless `force`, the cache guard reads
the hard-coded `students` field and `lastSemesterId`; on a hit it returns
without calling the service. Otherwise it fetches: success stores the list
and remembers the semester; a 409 matching `downgradeCond` is downgraded to
an empty-list success; other errors go to the error slot; `finally` clears
`loading`. The returned boolean reports whether the network was called. -/
def createFetchBySemesterAction {T : Type} (e : String) (hasFilter : Bool)
    (filterFn : List T → List T) (now : Nat) (svc : ApiResult (List T))
    (semesterId : String) (force : Bool) (s : StoreState T) : StoreState T × Bool :=
  if force = false ∧ (s.fields "students").isSome ∧ s.lastSemesterId = some semesterId then
    (s, false)
  else
    let s0 : StoreState T := { s with flags := setB s.flags "loading" true, lastError := none }
    let s1 : StoreState T :=
      match svc with
      | .ok data =>
        { handleFetchSuccess e hasFilter filterFn data s0 with lastSemesterId := some semesterId }
      | .okNoData => s0
      | .err er =>
        if downgradeCond er then
          { handleFetchSuccess e hasFilter filterFn [] s0 with lastSemesterId := some semesterId }
        else
          handleResultError now er s0
      | .thrown er => handleActionError now er s0
    ({ s1 with flags := setB s1.flags "loading" false }, true)

end TheSync

namespace TheSync

/-- A concrete record shape used to instantiate the polymorphic store in
witnesses and counterexamples: an identifier plus one boolean field. -/
structure SRecord where
  id : String
  active : Bool
deriving Repr, DecidableEq

/-! ## Credential refresh coalescing (token manager) -/

/-- Modelled from the spec: the shared refresh state of
`TokenManager.refreshAccessToken` (the file
`src/lib/utils/auth/token-manager.ts` is not in the repository snapshot;
only its callers are). Spec: "At most one in-flight refresh of the
Credential Pair exists at a time; concurrent requests needing refresh must
await the same outstanding refresh rather than triggering duplicate refresh
calls." `inflight` is the outstanding refresh (the shared promise, embedded
by the token it resolves to) and `calls` counts refresh network calls. -/
structure RefreshMgr where
  inflight : Option String
  calls : Nat
deriving Repr, DecidableEq

/-- Modelled from the spec: one request observing an expired credential.
If a refresh is outstanding it awaits that same refresh and uses its token;
otherwise it starts the single refresh network call, which resolves to
`fresh`. Atomic because the host is single-threaded and event-loop driven
(spec section 5). -/
def requestRefresh (fresh : String) (m : RefreshMgr) : String × RefreshMgr :=
  match m.inflight with
  | some tok => (tok, m)
  | none => (fresh, ⟨some fresh, m.calls + 1⟩)

/-- Modelled from the spec: `n` concurrent requests that each observe an
expired credential while the refresh (if any) is outstanding; each performs
its atomic `requestRefresh` step in event-loop order. -/
def runConcurrent (fresh : String) : Nat → RefreshMgr → List String × RefreshMgr
  | 0, m => ([], m)
  | n + 1, m =>
    let first := requestRefresh fresh m
    let rest := runConcurrent fresh n first.2
    (first.1 :: rest.1, rest.2)

/-- Once a refresh is outstanding, later requests join it: no further
network calls, and every request resolves to the outstanding token. -/
theorem runConcurrent_inflight (fresh tok : String) (c : Nat) :
    ∀ n, runConcurrent fresh n ⟨some tok, c⟩ = (List.replicate n tok, ⟨some tok, c⟩) := by
  intro n
  induction n with
  | zero => rfl
  | succ k ih => simp [runConcurrent, requestRefresh, ih, List.replicate_succ]

end TheSync

namespace TheSync

/-- Claim C10: starting with no outstanding refresh, `n ≥ 1` concurrent
requests that each observe an expired credential perform exactly one
refresh network call, and all `n` resolve to the same single new
credential. -/
theorem refresh_coalescing (fresh : String) (n : Nat) (hn : 0 < n) :
    (runConcurrent fresh n ⟨none, 0⟩).2.calls = 1
    ∧ (runConcurrent fresh n ⟨none, 0⟩).1 = List.replicate n fresh := by
  obtain ⟨k, rfl⟩ : ∃ k, n = k + 1 := ⟨n - 1, by omega⟩
  constructor
  · simp [runConcurrent, requestRefresh, runConcurrent_inflight]
  · simp [runConcurrent, requestRefresh, runConcurrent_inflight, List.replicate_succ]

/-- Witness for C10 with three concurrent requests. -/
theorem refresh_coalescing_witness :
    0 < 3
    ∧ (runConcurrent "tok" 3 ⟨none, 0⟩).2.calls = 1
    ∧ (runConcurrent "tok" 3 ⟨none, 0⟩).1 = List.replicate 3 "tok" := by
  have h := refresh_coalescing "tok" 3 (by decide)
  exact ⟨by decide, h.1, h.2⟩

end TheSync

namespace TheSync

/-! ## Key and handler lemmas -/

theorem setF_eval {T : Type} (m : String → Option (List T)) (k : String) (v : List T)
    (q : String) : setF m k v q = if q = k then some v else m q := rfl

theorem setB_eval (m : String → Bool) (k : String) (v : Bool) (q : String) :
    setB m k v q = if q = k then v else m q := rfl

theorem capitalize_length (s : String) : (capitalize s).length = s.length := by
  cases s with
  | mk data =>
    cases data with
    | nil => rfl
    | cons c cs => rfl

theorem pluralKey_ne_filteredKey (e : String) : pluralKey e ≠ filteredKey e := by
  intro h
  have hlen := congrArg String.length h
  rw [pluralKey, filteredKey, String.length_append, String.length_append,
    String.length_append, capitalize_length] at hlen
  have h1 : ("s" : String).length = 1 := rfl
  have h2 : ("filtered" : String).length = 8 := rfl
  rw [h1, h2] at hlen
  omega

theorem runFilter_fields_plural {T : Type} (e : String) (hf : Bool)
    (fn : List T → List T) (s : StoreState T) :
    (runFilter e hf fn s).fields (pluralKey e) = s.fields (pluralKey e) := by
  cases hf with
  | false => rfl
  | true => simp [runFilter, setF_eval, pluralKey_ne_filteredKey e]

theorem runFilter_flags {T : Type} (e : String) (hf : Bool) (fn : List T → List T)
    (s : StoreState T) : (runFilter e hf fn s).flags = s.flags := by
  cases hf with
  | false => rfl
  | true => rfl

theorem runFilter_lastError {T : Type} (e : String) (hf : Bool) (fn : List T → List T)
    (s : StoreState T) : (runFilter e hf fn s).lastError = s.lastError := by
  cases hf with
  | false => rfl
  | true => rfl

theorem runFilter_lastSemesterId {T : Type} (e : String) (hf : Bool) (fn : List T → List T)
    (s : StoreState T) : (runFilter e hf fn s).lastSemesterId = s.lastSemesterId := by
  cases hf with
  | false => rfl
  | true => rfl

theorem handleFetchSuccess_fields_plural {T : Type} (e : String) (hf : Bool)
    (fn : List T → List T) (data : List T) (s : StoreState T) :
    (handleFetchSuccess e hf fn data s).fields (pluralKey e) = some data := by
  rw [handleFetchSuccess, runFilter_fields_plural]
  simp [setF_eval, pluralKey_ne_filteredKey e]

theorem handleCreateSuccess_fields_plural {T : Type} (e : String) (hf : Bool)
    (fn : List T → List T) (data : T) (s : StoreState T) :
    (handleCreateSuccess e hf fn data s).fields (pluralKey e)
      = some (data :: getList s (pluralKey e)) := by
  rw [handleCreateSuccess, runFilter_fields_plural]
  simp [setF_eval]

theorem handleUpdateSuccess_fields_plural {T : Type} (idOf : T → String) (e : String)
    (hf : Bool) (fn : List T → List T) (data : T) (id : String) (s : StoreState T) :
    (handleUpdateSuccess idOf e hf fn data id s).fields (pluralKey e)
      = some ((getList s (pluralKey e)).map fun item => if idOf item = id then data else item) := by
  rw [handleUpdateSuccess, runFilter_fields_plural]
  simp [setF_eval]

theorem handleDeleteSuccess_fields_plural {T : Type} (idOf : T → String) (e : String)
    (hf : Bool) (fn : List T → List T) (id : String) (s : StoreState T) :
    (handleDeleteSuccess idOf e hf fn id s).fields (pluralKey e)
      = some ((getList s (pluralKey e)).filter fun item => idOf item != id) := by
  rw [handleDeleteSuccess, runFilter_fields_plural]
  simp [setF_eval]

end TheSync

namespace TheSync

/-- Claim C9: every factory action clears its busy-flag(s) on every outcome
(success, normalized error, thrown exception): the `finally` block runs on
all paths. The fetch-by-semester action either clears `loading` or took the
cache-hit early return, which sets no flag and leaves the state untouched. -/
theorem busy_flags_cleared {T : Type} (idOf : T → String) (e : String) (hf : Bool)
    (fn : List T → List T) (now : Nat) (svcL : ApiResult (List T)) (svcT : ApiResult T)
    (svcU : ApiResult Unit) (id p : String) (force : Bool) (s : StoreState T) :
    (createFetchAction e hf fn now svcL s).flags "loading" = false
    ∧ ((createFetchBySemesterAction e hf fn now svcL p force s).1.flags "loading" = false
        ∨ (createFetchBySemesterAction e hf fn now svcL p force s).1 = s)
    ∧ (createCreateAction e hf fn now svcT s).1.flags "creating" = false
    ∧ (createBatchCreateAction e hf fn now svcL s).1.flags "creatingMany" = false
    ∧ (createBatchCreateAction e hf fn now svcL s).1.flags (creatingManyKey e) = false
    ∧ (createUpdateAction idOf e hf fn now svcT id s).1.flags "updating" = false
    ∧ (createToggleStatusAction idOf e hf fn now svcT id s).1.flags "togglingStatus" = false
    ∧ (createDeleteAction idOf e hf fn now svcU id s).1.flags "deleting" = false := by
  refine ⟨?_, ?_, ?_, ?_, ?_, ?_, ?_, ?_⟩
  · cases svcL <;> simp [createFetchAction, setB_eval]
  · by_cases hc : force = false ∧ (s.fields "students").isSome
        ∧ s.lastSemesterId = some p
    · right
      simp [createFetchBySemesterAction, hc]
    · left
      cases svcL <;> simp [createFetchBySemesterAction, hc, setB_eval]
  · cases svcT <;> simp [createCreateAction, setB_eval]
  · cases svcL <;> simp [createBatchCreateAction, setB_eval]
  · cases svcL <;> simp [createBatchCreateAction, setB_eval]
  · cases svcT <;> simp [createUpdateAction, setB_eval]
  · cases svcT <;> simp [createToggleStatusAction, setB_eval]
  · cases svcU <;> simp [createDeleteAction, setB_eval]

end TheSync

namespace TheSync

/-- Counterexample to C2 as stated: `handleCreateSuccess` prepends the
server record without deduplication, so a collection that already holds a
record with the returned identifier ends up with two such records. -/
theorem create_duplicate_id_counterexample :
    ((getList (createCreateAction "student" false (fun l => l) 0
          (.ok ⟨"a", true⟩)
          ⟨setF (fun _ => none) "students" [⟨"a", false⟩], fun _ => false, none, none⟩).1
        (pluralKey "student")).filter (fun r : SRecord => r.id == "a")).length = 2 := by
  decide

/-- Claim C2 (amended): provided no record with the server-returned
identifier is already in the collection, a successful create leaves
exactly one record with that identifier, positioned first. -/
theorem create_success_unique_first {T : Type} (idOf : T → String) (e : String)
    (hf : Bool) (fn : List T → List T) (now : Nat) (data : T) (s : StoreState T)
    (hfresh : ∀ r ∈ getList s (pluralKey e), idOf r ≠ idOf data) :
    ((getList (createCreateAction e hf fn now (.ok data) s).1 (pluralKey e)).filter
        (fun r => idOf r == idOf data)).length = 1
    ∧ (getList (createCreateAction e hf fn now (.ok data) s).1 (pluralKey e)).head?
        = some data := by
  have hcol : getList (createCreateAction e hf fn now (.ok data) s).1 (pluralKey e)
      = data :: getList s (pluralKey e) := by
    show ((handleCreateSuccess e hf fn data _).fields (pluralKey e)).getD [] = _
    rw [handleCreateSuccess_fields_plural]
    rfl
  rw [hcol]
  refine ⟨?_, rfl⟩
  have hnil : (getList s (pluralKey e)).filter (fun r => idOf r == idOf data) = [] := by
    rw [List.filter_eq_nil_iff]
    intro r hr
    simpa using hfresh r hr
  simp [List.filter_cons, hnil]

/-- Witness for C2 (amended): creating into a collection holding only a
different identifier. -/
theorem create_success_unique_first_witness :
    (∀ r ∈ getList (⟨setF (fun _ => none) "students" [⟨"b", false⟩], fun _ => false,
        none, none⟩ : StoreState SRecord) (pluralKey "student"),
      SRecord.id r ≠ SRecord.id ⟨"a", true⟩)
    ∧ ((getList (createCreateAction "student" false (fun l => l) 0
          (.ok ⟨"a", true⟩)
          ⟨setF (fun _ => none) "students" [⟨"b", false⟩], fun _ => false, none, none⟩).1
        (pluralKey "student")).filter (fun r => SRecord.id r == SRecord.id ⟨"a", true⟩)).length = 1 := by
  refine ⟨by decide, ?_⟩
  exact (create_success_unique_first SRecord.id "student" false (fun l => l) 0
    ⟨"a", true⟩ ⟨setF (fun _ => none) "students" [⟨"b", false⟩], fun _ => false, none, none⟩
    (by decide)).1

end TheSync

namespace TheSync

/-- Claim C7: after a successful update — or toggle, which shares
`handleUpdateSuccess` — the record at each position whose identifier equals
`i` is replaced in place by the server-returned record, every record with a
different identifier is unchanged at its position, and the collection
length is preserved. -/
theorem update_toggle_frame {T : Type} (idOf : T → String) (e : String) (hf : Bool)
    (fn : List T → List T) (now : Nat) (data : T) (i : String) (s : StoreState T)
    (k : Nat) (r : T) (hk : (getList s (pluralKey e))[k]? = some r) :
    (getList (createUpdateAction idOf e hf fn now (.ok data) i s).1 (pluralKey e))[k]?
        = some (if idOf r = i then data else r)
    ∧ (getList (createToggleStatusAction idOf e hf fn now (.ok data) i s).1 (pluralKey e))[k]?
        = some (if idOf r = i then data else r)
    ∧ (getList (createUpdateAction idOf e hf fn now (.ok data) i s).1 (pluralKey e)).length
        = (getList s (pluralKey e)).length
    ∧ (getList (createToggleStatusAction idOf e hf fn now (.ok data) i s).1 (pluralKey e)).length
        = (getList s (pluralKey e)).length := by
  have hupd : getList (createUpdateAction idOf e hf fn now (.ok data) i s).1 (pluralKey e)
      = (getList s (pluralKey e)).map fun item => if idOf item = i then data else item := by
    show ((handleUpdateSuccess idOf e hf fn data i _).fields (pluralKey e)).getD [] = _
    rw [handleUpdateSuccess_fields_plural]
    rfl
  have htog : getList (createToggleStatusAction idOf e hf fn now (.ok data) i s).1 (pluralKey e)
      = (getList s (pluralKey e)).map fun item => if idOf item = i then data else item := by
    show ((handleUpdateSuccess idOf e hf fn data i _).fields (pluralKey e)).getD [] = _
    rw [handleUpdateSuccess_fields_plural]
    rfl
  rw [hupd, htog, List.getElem?_map, hk]
  simp

/-- Witness for C7: toggling `{id := "s1", active := false}` to the
server-returned `{id := "s1", active := true}` replaces it at position 0. -/
theorem update_toggle_frame_witness :
    (getList (⟨setF (fun _ => none) "students" [⟨"s1", false⟩], fun _ => false,
        none, none⟩ : StoreState SRecord) (pluralKey "student"))[0]? = some ⟨"s1", false⟩
    ∧ (getList (createToggleStatusAction SRecord.id "student" false (fun l => l) 0
          (.ok ⟨"s1", true⟩) "s1"
          ⟨setF (fun _ => none) "students" [⟨"s1", false⟩], fun _ => false, none, none⟩).1
        (pluralKey "student"))[0]?
      = some (if SRecord.id ⟨"s1", false⟩ = "s1" then (⟨"s1", true⟩ : SRecord) else ⟨"s1", false⟩) := by
  refine ⟨by decide, ?_⟩
  exact (update_toggle_frame SRecord.id "student" false (fun l => l) 0 ⟨"s1", true⟩ "s1"
    ⟨setF (fun _ => none) "students" [⟨"s1", false⟩], fun _ => false, none, none⟩
    0 ⟨"s1", false⟩ (by decide)).2.1

end TheSync

namespace TheSync

/-- Removing the single occurrence of identifier `i` from a list with
pairwise-distinct identifiers shortens it by exactly one. -/
theorem length_filter_ne_of_nodup {T : Type} (idOf : T → String) (i : String) :
    ∀ l : List T, (l.map idOf).Nodup → i ∈ l.map idOf →
      (l.filter fun r => idOf r != i).length + 1 = l.length := by
  intro l
  induction l with
  | nil => intro _ hm; simp at hm
  | cons a l ih =>
    intro hnd hm
    rw [List.map_cons, List.nodup_cons] at hnd
    obtain ⟨ha, hnd⟩ := hnd
    by_cases hai : idOf a = i
    · have hkeep : l.filter (fun r => idOf r != i) = l := by
        rw [List.filter_eq_self]
        intro b hb
        have : idOf b ≠ i := by
          intro hbi
          exact ha (hai ▸ hbi ▸ List.mem_map_of_mem idOf hb)
        simpa using this
      simp [List.filter_cons, hai, hkeep]
    · have hm' : i ∈ l.map idOf := by
        rw [List.map_cons, List.mem_cons] at hm
        rcases hm with h | h
        · exact absurd h.symm hai
        · exact h
      have := ih hnd hm'
      simp only [List.filter_cons]
      rw [if_pos (by simpa using hai)]
      simp only [List.length_cons]
      omega

/-- Claim C8: after a successful delete of identifier `i`, no record with
identifier `i` remains; the surviving records are a sublist of the old
collection (other records retained, in order), every record with another
identifier is retained; and when identifiers are pairwise distinct and `i`
was present, the length decreases by exactly one. -/
theorem delete_removes_id {T : Type} (idOf : T → String) (e : String) (hf : Bool)
    (fn : List T → List T) (now : Nat) (i : String) (s : StoreState T) :
    (∀ r ∈ getList (createDeleteAction idOf e hf fn now (.ok ()) i s).1 (pluralKey e),
        idOf r ≠ i)
    ∧ List.Sublist (getList (createDeleteAction idOf e hf fn now (.ok ()) i s).1 (pluralKey e))
        (getList s (pluralKey e))
    ∧ (∀ r ∈ getList s (pluralKey e), idOf r ≠ i →
        r ∈ getList (createDeleteAction idOf e hf fn now (.ok ()) i s).1 (pluralKey e))
    ∧ (((getList s (pluralKey e)).map idOf).Nodup → i ∈ (getList s (pluralKey e)).map idOf →
        (getList (createDeleteAction idOf e hf fn now (.ok ()) i s).1 (pluralKey e)).length + 1
          = (getList s (pluralKey e)).length) := by
  have hdel : getList (createDeleteAction idOf e hf fn now (.ok ()) i s).1 (pluralKey e)
      = (getList s (pluralKey e)).filter fun r => idOf r != i := by
    show ((handleDeleteSuccess idOf e hf fn i _).fields (pluralKey e)).getD [] = _
    rw [handleDeleteSuccess_fields_plural]
    rfl
  rw [hdel]
  refine ⟨?_, List.filter_sublist _, ?_, fun hnd hm => length_filter_ne_of_nodup idOf i _ hnd hm⟩
  · intro r hr
    have := (List.mem_filter.mp hr).2
    simpa using this
  · intro r hr hne
    exact List.mem_filter.mpr ⟨hr, by simpa using hne⟩

/-- Witness for C8: deleting `"a"` from a two-record collection with
distinct identifiers removes it and shortens the collection by one. -/
theorem delete_removes_id_witness :
    (((getList (⟨setF (fun _ => none) "students" [⟨"a", true⟩, ⟨"b", false⟩],
        fun _ => false, none, none⟩ : StoreState SRecord) (pluralKey "student")).map
          SRecord.id).Nodup)
    ∧ (getList (createDeleteAction SRecord.id "student" false (fun l => l) 0 (.ok ()) "a"
          ⟨setF (fun _ => none) "students" [⟨"a", true⟩, ⟨"b", false⟩],
            fun _ => false, none, none⟩).1 (pluralKey "student")).length + 1
        = (getList (⟨setF (fun _ => none) "students" [⟨"a", true⟩, ⟨"b", false⟩],
            fun _ => false, none, none⟩ : StoreState SRecord) (pluralKey "student")).length := by
  refine ⟨by decide, ?_⟩
  exact (delete_removes_id SRecord.id "student" false (fun l => l) 0 "a"
    ⟨setF (fun _ => none) "students" [⟨"a", true⟩, ⟨"b", false⟩],
      fun _ => false, none, none⟩).2.2.2 (by decide) (by decide)

end TheSync

namespace TheSync

/-- Counterexample to C3 as stated: the cache guard reads the hard-coded
`students` key, so for a store built with entity name `"group"` the data is
cached under `groups` and both successive calls with `force = false` hit
the network. -/
theorem fetch_by_semester_refetch_counterexample :
    (createFetchBySemesterAction "group" false (fun l => l) 0
        (.ok [(⟨"g1", true⟩ : SRecord)]) "sem-1" false
        ⟨fun _ => none, fun _ => false, none, none⟩).2 = true
    ∧ (createFetchBySemesterAction "group" false (fun l => l) 0
        (.ok [(⟨"g1", true⟩ : SRecord)]) "sem-1" false
        (createFetchBySemesterAction "group" false (fun l => l) 0
          (.ok [(⟨"g1", true⟩ : SRecord)]) "sem-1" false
          ⟨fun _ => none, fun _ => false, none, none⟩).1).2 = true := by
  constructor
  · decide
  · decide

/-- Claim C3 (amended): for the store whose entity name is `"student"` —
the one the guard's hard-coded `students` key fits — after a first
`fetch-by-parent(p, force := false)` whose result was cached (a success, or
a 409 downgraded by the recognized pattern), a second call with
`force = false` and no intervening mutation returns without calling the
service and leaves the state unchanged. -/
theorem fetch_by_semester_idempotent_student {T : Type} (hf : Bool) (fn : List T → List T)
    (now now' : Nat) (svc svc' : ApiResult (List T)) (p : String) (s : StoreState T)
    (hsucc : (∃ data, svc = .ok data) ∨ ∃ er, svc = .err er ∧ downgradeCond er = true) :
    createFetchBySemesterAction "student" hf fn now' svc' p false
        (createFetchBySemesterAction "student" hf fn now svc p false s).1
      = ((createFetchBySemesterAction "student" hf fn now svc p false s).1, false) := by
  have hps : pluralKey "student" = "students" := rfl
  have hf2 : ((createFetchBySemesterAction "student" hf fn now svc p false s).1.fields
      "students").isSome = true := by
    by_cases h0 : false = false ∧ (s.fields "students").isSome
        ∧ s.lastSemesterId = some p
    · rw [createFetchBySemesterAction, if_pos h0]
      exact h0.2.1
    · rw [createFetchBySemesterAction, if_neg h0]
      obtain ⟨data, rfl⟩ | ⟨er, rfl, hdg⟩ := hsucc
      · show ((handleFetchSuccess "student" hf fn data _).fields "students").isSome = true
        rw [← hps, handleFetchSuccess_fields_plural]
        rfl
      · simp only [hdg, if_true]
        show ((handleFetchSuccess "student" hf fn [] _).fields "students").isSome = true
        rw [← hps, handleFetchSuccess_fields_plural]
        rfl
  have hf1 : (createFetchBySemesterAction "student" hf fn now svc p false s).1.lastSemesterId
      = some p := by
    by_cases h0 : false = false ∧ (s.fields "students").isSome
        ∧ s.lastSemesterId = some p
    · rw [createFetchBySemesterAction, if_pos h0]
      exact h0.2.2
    · rw [createFetchBySemesterAction, if_neg h0]
      obtain ⟨data, rfl⟩ | ⟨er, rfl, hdg⟩ := hsucc
      · rfl
      · simp only [hdg, if_true]
  set r1 := (createFetchBySemesterAction "student" hf fn now svc p false s).1 with hr1
  unfold createFetchBySemesterAction
  rw [if_pos ⟨rfl, hf2, hf1⟩]

end TheSync

namespace TheSync

/-- Witness for C3 (amended): a concrete successful student fetch followed
by a second call, which is a no-op. -/
theorem fetch_by_semester_idempotent_student_witness :
    createFetchBySemesterAction "student" false (fun l => l) 1
        (.ok [(⟨"s2", false⟩ : SRecord)]) "sem-1" false
        (createFetchBySemesterAction "student" false (fun l => l) 0
          (.ok [(⟨"s1", true⟩ : SRecord)]) "sem-1" false
          ⟨fun _ => none, fun _ => false, none, none⟩).1
      = ((createFetchBySemesterAction "student" false (fun l => l) 0
          (.ok [(⟨"s1", true⟩ : SRecord)]) "sem-1" false
          ⟨fun _ => none, fun _ => false, none, none⟩).1, false) :=
  fetch_by_semester_idempotent_student false (fun l => l) 0 1
    (.ok [(⟨"s1", true⟩ : SRecord)]) (.ok [(⟨"s2", false⟩ : SRecord)]) "sem-1"
    ⟨fun _ => none, fun _ => false, none, none⟩
    (Or.inl ⟨[(⟨"s1", true⟩ : SRecord)], rfl⟩)

/-- Claim C4: when a fetch-by-parent call that reaches the network gets a
normalized error, a 409 whose message matches the recognized
enrollment-state pattern is downgraded: the collection ends empty, the
remembered parent id is set to the requested parent, and no error-state
entry is recorded; every other error result records the single-slot error
state instead. -/
theorem conflict_downgrade {T : Type} (e : String) (hf : Bool) (fn : List T → List T)
    (now : Nat) (er : ApiErr) (p : String) (force : Bool) (s : StoreState T)
    (hnet : (createFetchBySemesterAction e hf fn now (.err er) p force s).2 = true) :
    (downgradeCond er = true →
      (createFetchBySemesterAction e hf fn now (.err er) p force s).1.fields (pluralKey e)
          = some []
      ∧ (createFetchBySemesterAction e hf fn now (.err er) p force s).1.lastSemesterId
          = some p
      ∧ (createFetchBySemesterAction e hf fn now (.err er) p force s).1.lastError = none)
    ∧ (downgradeCond er = false →
      (createFetchBySemesterAction e hf fn now (.err er) p force s).1.lastError
          = some (createErrorState now er)) := by
  have h0 : ¬(force = false ∧ (s.fields "students").isSome
      ∧ s.lastSemesterId = some p) := by
    intro hc
    rw [createFetchBySemesterAction, if_pos hc] at hnet
    exact Bool.noConfusion hnet
  constructor
  · intro hdg
    refine ⟨?_, ?_, ?_⟩
    · rw [createFetchBySemesterAction, if_neg h0]
      simp only [hdg, if_true]
      show (handleFetchSuccess e hf fn [] _).fields (pluralKey e) = some []
      rw [handleFetchSuccess_fields_plural]
    · rw [createFetchBySemesterAction, if_neg h0]
      simp only [hdg, if_true]
    · rw [createFetchBySemesterAction, if_neg h0]
      simp only [hdg, if_true]
      show (handleFetchSuccess e hf fn [] _).lastError = none
      rw [handleFetchSuccess, runFilter_lastError]
  · intro hdg
    rw [createFetchBySemesterAction, if_neg h0]
    simp only [hdg, if_false]
    rfl

/-- Witness for C4: a forced fetch for `sem-1` answered by a 409 whose
message contains `NotYet` ends with an empty collection, the remembered
semester, and no recorded error; the same 409 with an unrecognized message
records the error state. -/
theorem conflict_downgrade_witness :
    (createFetchBySemesterAction "student" false (fun l => l) 0
        (.err ⟨"Semester is in NotYet status", 409⟩) "sem-1" true
        (⟨fun _ => none, fun _ => false, none, none⟩ : StoreState SRecord)).1.fields
        (pluralKey "student") = some []
    ∧ (createFetchBySemesterAction "student" false (fun l => l) 0
        (.err ⟨"Semester is in NotYet status", 409⟩) "sem-1" true
        (⟨fun _ => none, fun _ => false, none, none⟩ : StoreState SRecord)).1.lastError = none
    ∧ (createFetchBySemesterAction "student" false (fun l => l) 0
        (.err ⟨"boom", 500⟩) "sem-1" true
        (⟨fun _ => none, fun _ => false, none, none⟩ : StoreState SRecord)).1.lastError
      = some (createErrorState 0 ⟨"boom", 500⟩) := by
  have h1 := conflict_downgrade "student" false (fun l => l) 0
    ⟨"Semester is in NotYet status", 409⟩ "sem-1" true
    (⟨fun _ => none, fun _ => false, none, none⟩ : StoreState SRecord) (by decide)
  have h2 := conflict_downgrade "student" false (fun l => l) 0
    ⟨"boom", 500⟩ "sem-1" true
    (⟨fun _ => none, fun _ => false, none, none⟩ : StoreState SRecord) (by decide)
  have hd1 := h1.1 (by decide)
  exact ⟨hd1.1, hd1.2.2, h2.2 (by decide)⟩

end TheSync
